import Mathlib

/-!
# Verification of the agent-bridge core against its specification

A shallow embedding, in Lean 4, of the parts of the `agent-bridge`
repository (TypeScript) that the spec's claims are about:

* `src/workspace.ts` — `repoSlug`, `createWorktree`, `setupWorkspace`,
  `verifyGitPush`, worktree-path generation;
* `src/bridge.ts` — `executeRequest` and `buildErrorPayload`;
* `src/http.ts` — admission validation of `POST /execute`;
* the queue contract from the spec (the `src/queue.ts` module itself is
  not part of the provided sources, so its model is taken from the spec).

Effectful TypeScript is modelled by explicit oracles: each external
operation's outcome (a git command's stdout, an exception, the winner
of the provider-vs-timeout race) is a field of an environment value,
and the embedded functions are pure functions of request × environment
that return the observable trace (callbacks sent, cleanup invocations,
…). JavaScript numbers that only flow through the code untouched are
modelled as `Nat`.
-/

namespace AgentBridge

/-- A JSON-ish runtime value, used where the TypeScript code inspects
dynamically-typed data (`metadata` entries, raw request fields). -/
inductive JVal where
  | str (s : String)
  | bool (b : Bool)
  | num (n : Int)
  | null
deriving DecidableEq, Repr

/-! ## Data model (src/types.ts)

`Workspace` is modelled in its *runtime* shape rather than the static
TypeScript union: an object whose `type` field may be absent or hold any
JSON value.  This is what actually reaches `setupWorkspace` at run time
(the HTTP layer casts without checking that `type` is present), and what
claim C10 is about. -/

/-- Runtime shape of a workspace descriptor object. -/
structure WsRaw where
  wsType : Option JVal := none
  repo : String := ""
  branch : Option String := none
  overlays : Option Bool := none
  seedFiles : List (String × String) := []
deriving DecidableEq, Repr

/-- The slice of `AgentConfig` that `executeRequest` reads. -/
structure AgentCfg where
  provider : Option String := none
  timeoutMs : Option Nat := none
deriving DecidableEq, Repr

/-- Metadata map entries that the orchestrator inspects. -/
structure Meta where
  expectBranchPush : Option JVal := none
deriving DecidableEq, Repr

/-- ExecutionRequest (src/types.ts): the fields `executeRequest` reads. -/
structure ExecutionRequest where
  id : String
  prompt : String
  callbackUrl : Option String := none
  workspace : Option WsRaw := none
  agent : Option AgentCfg := none
  metadata : Option Meta := none
deriving DecidableEq, Repr

/-- Usage counters of a `ProviderResult` (src/providers/types.ts). -/
structure Usage where
  totalCostUsd : Nat
  inputTokens : Nat
  outputTokens : Nat
  numTurns : Nat
deriving DecidableEq, Repr

/-- `status: "success" | "error"`. -/
inductive RStatus where
  | success
  | error
deriving DecidableEq, Repr

/-- ProviderResult (src/providers/types.ts). -/
structure ProviderResult where
  status : RStatus
  output : Option String := none
  error : Option String := none
  usage : Usage
deriving DecidableEq, Repr

/-- CallbackPayload (src/types.ts): flat result payload. -/
structure CallbackPayload where
  id : String
  status : RStatus
  durationMs : Nat
  totalCostUsd : Nat
  inputTokens : Nat
  outputTokens : Nat
  numTurns : Nat
  result : Option String := none
  error : Option String := none
  metadata : Option Meta := none
deriving DecidableEq, Repr

/-! ## verifyGitPush (src/workspace.ts lines 199–240)

The two git invocations are modelled as oracle outcomes: `Except Unit
String` is "the exec either threw, or produced this stdout".  The first
command is wrapped `2>/dev/null || echo ""` in the source, so a missing
`origin/<branch>` ref surfaces as empty stdout, not as an exception; the
exception case still exists (e.g. an invalid working directory). -/

/-- Result shape `{ pushed, unpushedCommits }`. -/
structure VerifyResult where
  pushed : Bool
  unpushedCommits : List String
deriving DecidableEq, Repr

/-- JavaScript `String.prototype.trim`: drop leading and trailing
whitespace. -/
def jsTrim (s : List Char) : List Char :=
  (((s.dropWhile Char.isWhitespace).reverse).dropWhile Char.isWhitespace).reverse

/-- JavaScript `String.prototype.split("\n")`: split on every newline;
`"".split("\n")` is `[""]`. -/
def splitLines : List Char → List (List Char)
  | [] => [[]]
  | c :: rest =>
    if c = '\n' then [] :: splitLines rest
    else
      match splitLines rest with
      | h :: t => (c :: h) :: t
      | [] => [[c]]

/-- `logOutput.trim().split("\n").filter(Boolean)` from the source. -/
def parseCommits (out : String) : List String :=
  ((splitLines (jsTrim out.data)).filter (· ≠ [])).map String.mk

/-- `verifyGitPush(cwd, branch)`: `gitLog` is the outcome of
`git log --oneline origin/<branch>..HEAD 2>/dev/null || echo ""`,
`lsRemote` the outcome of `git ls-remote --heads origin <branch>`
(evaluated only when reached, as in the source). Total: never raises. -/
def verifyGitPush (gitLog : Except Unit String) (lsRemote : Except Unit String) :
    VerifyResult :=
  match gitLog with
  | .error _ => ⟨false, ["(verification error)"]⟩
  | .ok logOutput =>
    let unpushedCommits := parseCommits logOutput
    if unpushedCommits.length > 0 then
      ⟨false, unpushedCommits⟩
    else
      match lsRemote with
      | .error _ => ⟨false, ["(verification error)"]⟩
      | .ok remoteRef =>
        if jsTrim remoteRef.data = [] then
          ⟨false, ["(branch not on remote)"]⟩
        else
          ⟨true, []⟩

/-! ## repoSlug (src/workspace.ts lines 33–37)

The source matches the regex
`/(?:github\.com\/)?([^\/]+\/[^\/.]+?)(?:\.git)?$/` against the repo
reference and replaces the first `/` of the capture with `--`.  The
embedding implements that exact pattern's JavaScript matching
discipline directly:

* `String.prototype.match` scans start positions left to right
  (`scanMatch`);
* the optional non-capturing `github.com/` group is greedy: tried with
  the prefix consumed first, then without (`matchAt`);
* `[^/]+` is greedy and cannot cross a `/`, so the only viable split is
  at the first slash (`seg1Split`);
* `[^/.]+?` is lazy: shortest extension first (`seg2Scan`);
* `(?:\.git)?` then `$` accept exactly a `.git` remainder or the end of
  the input (`tailOk`). -/

/-- Remainder accepted by `(?:\.git)?$`. -/
def tailOk (rest : List Char) : Bool :=
  rest = ".git".data || rest = []

/-- Lazy `[^/.]+?` scan: shortest candidate whose remainder satisfies
`tailOk`. `acc` is the (reversed-in-order, here kept in order) text
matched so far. -/
def seg2Scan : List Char → List Char → Option (List Char)
  | _, [] => none
  | acc, c :: rest =>
    if c ≠ '/' && c ≠ '.' then
      if tailOk rest then some (acc ++ [c]) else seg2Scan (acc ++ [c]) rest
    else none

/-- Greedy `[^/]+` followed by a literal `/`: split at the first slash,
requiring at least one preceding character. -/
def seg1Split (s : List Char) : Option (List Char × List Char) :=
  let p := s.span (· ≠ '/')
  match p.1, p.2 with
  | [], _ => none
  | seg1, '/' :: rest => some (seg1, rest)
  | _, _ => none

/-- Attempt the pattern at one start position, returning the capture
group `([^/]+\/[^/.]+?)`. -/
def matchAt (s : List Char) : Option (List Char) :=
  let core : List Char → Option (List Char) := fun t =>
    match seg1Split t with
    | some (seg1, rest) => (seg2Scan [] rest).map fun seg2 => seg1 ++ '/' :: seg2
    | none => none
  if s.take 11 = "github.com/".data then
    match core (s.drop 11) with
    | some cap => some cap
    | none => core s
  else core s

/-- Leftmost-match scan over start positions. -/
def scanMatch : List Char → Option (List Char)
  | [] => matchAt []
  | c :: rest =>
    match matchAt (c :: rest) with
    | some cap => some cap
    | none => scanMatch rest

/-- `.replace("/", "--")`: JavaScript `replace` with a string pattern
replaces only the first occurrence. -/
def replaceFirstSlash : List Char → List Char
  | [] => []
  | '/' :: rest => '-' :: '-' :: rest
  | c :: rest => c :: replaceFirstSlash rest

/-- `repoSlug(repo)`: throws (`Except.error`) when the regex does not
match. -/
def repoSlug (repo : String) : Except String String :=
  match scanMatch repo.data with
  | some cap => .ok (String.mk (replaceFirstSlash cap))
  | none => .error ("Invalid repository: " ++ repo)

/-! ## createWorktree (src/workspace.ts lines 64–109)

The worktree id is `Date.now().toString(36)` — base-36 of the current
millisecond timestamp — and the path `join(worktreesDir, "wt-" + id)`.
The bare store is modelled by its branch list plus the branch its HEAD
points at (`defaultBranch`, what the spec calls "the repository's
default branch"; the code never consults it).  `git worktree add
--detach <path> <ref>` succeeds in the model iff `ref` names a branch
of the store. -/

/-- JavaScript digit characters for `Number.prototype.toString(36)`:
`0`–`9` then `a`–`z`. -/
def base36Char (d : Nat) : Char :=
  if d < 10 then Char.ofNat (48 + d) else Char.ofNat (87 + d)

/-- `n.toString(36)` for a non-negative integer. -/
def toBase36 (n : Nat) : String :=
  if n = 0 then "0" else String.mk (((Nat.digits 36 n).map base36Char).reverse)

/-- The worktree path generated for a creation at millisecond `nowMs`. -/
def worktreePathOf (worktreesDir : String) (nowMs : Nat) : String :=
  worktreesDir ++ "/wt-" ++ toBase36 nowMs

/-- A bare-store object database: its branches and the branch its HEAD
(the repository's default branch) points at. -/
structure BareStore where
  branches : List String
  defaultBranch : String
deriving DecidableEq, Repr

/-- One `git worktree add` invocation issued by `createWorktree`. -/
structure GitWtAdd where
  path : String
  ref : String
  detach : Bool
deriving DecidableEq, Repr

instance {ε α : Type} [DecidableEq ε] [DecidableEq α] : DecidableEq (Except ε α) := fun a b =>
  match a, b with
  | .ok x, .ok y =>
    if h : x = y then .isTrue (by rw [h]) else .isFalse (by simp [h])
  | .error x, .error y =>
    if h : x = y then .isTrue (by rw [h]) else .isFalse (by simp [h])
  | .ok _, .error _ => .isFalse (by simp)
  | .error _, .ok _ => .isFalse (by simp)

/-- Observable outcome of `createWorktree`: the generated path, the
`git worktree add` commands issued (in order), and the ref checked out
(or the error that escaped). -/
structure WorktreeOutcome where
  worktreePath : String
  addCmds : List GitWtAdd
  checkedOut : Except String String
deriving DecidableEq, Repr

/-- `createWorktree(barePath, worktreesDir, branch = "main")`: try the
requested branch detached; on failure fall back to the literal branch
`"main"`, also detached; if that fails too the error escapes. -/
def createWorktree (store : BareStore) (worktreesDir : String) (nowMs : Nat)
    (branch : String := "main") : WorktreeOutcome :=
  let worktreePath := worktreePathOf worktreesDir nowMs
  if branch ∈ store.branches then
    ⟨worktreePath, [⟨worktreePath, branch, true⟩], .ok branch⟩
  else if "main" ∈ store.branches then
    ⟨worktreePath, [⟨worktreePath, branch, true⟩, ⟨worktreePath, "main", true⟩], .ok "main"⟩
  else
    ⟨worktreePath, [⟨worktreePath, branch, true⟩, ⟨worktreePath, "main", true⟩],
      .error "fatal: invalid reference: main"⟩

/-! ## executeRequest (src/bridge.ts)

The orchestrator's effectful steps are driven by an `ExecEnv` oracle:
each field is the outcome the corresponding `await`/call would have
produced.  `executeRequest` then computes the observable trace — whether
setup was entered, how many times the workspace cleanup action ran,
whether push verification ran, and the callback payloads delivered. -/

/-- Winner of `Promise.race([providerPromise, timeoutPromise])`. -/
inductive RaceOutcome where
  | result (r : ProviderResult)
  | thrown (msg : String)
  | timedOut
deriving DecidableEq, Repr

/-- Oracle for one run of `executeRequest`. -/
structure ExecEnv where
  /-- Outcome of `setupWorkspace`: resolved cwd, or the raised error message. -/
  setup : Except String String
  /-- Outcome of `loadMcpServers(cwd)` — `JSON.parse` throws on invalid JSON. -/
  mcp : Except String Unit
  /-- Provider names registered in the registry. -/
  providers : List String
  /-- `config.defaultProvider`. -/
  defaultProvider : String
  /-- `config.timeout`. -/
  timeoutDefault : Nat
  /-- Winner of the provider-vs-timeout race. -/
  race : RaceOutcome
  /-- Result of `verifyGitPush(cwd, branch)` if the orchestrator calls it. -/
  verify : VerifyResult
  /-- `Date.now() - startMs` at payload-construction time. -/
  durationMs : Nat
deriving DecidableEq, Repr

/-- Observable trace of one `executeRequest` run. -/
structure ExecTrace where
  setupEntered : Bool
  cleanupCalls : Nat
  verifyCalled : Bool
  callbacks : List CallbackPayload
deriving DecidableEq, Repr

/-- `buildErrorPayload` (src/bridge.ts lines 155–171): status error,
all usage counters zero. -/
def buildErrorPayload (request : ExecutionRequest) (error : String)
    (durationMs : Nat) : CallbackPayload :=
  { id := request.id
    status := .error
    durationMs := durationMs
    totalCostUsd := 0
    inputTokens := 0
    outputTokens := 0
    numTurns := 0
    error := some error
    metadata := request.metadata }

/-- The timeout rejection message; `Math.round(timeout / 60_000)` for a
non-negative value is `⌊timeout/60000 + 1/2⌋`. -/
def timeoutMessage (timeout : Nat) (id : String) : String :=
  "Bridge timeout: agent exceeded " ++ toString timeout ++ "ms (" ++
    toString ((timeout + 30000) / 60000) ++ "min) for request " ++ id

/-- `getProvider`'s error message for an unregistered name. -/
def unknownProviderMsg (name : String) (available : List String) : String :=
  "Unknown provider \"" ++ name ++ "\". Available: " ++ String.intercalate ", " available

/-- `request.agent?.provider ?? config.defaultProvider`. -/
def providerNameOf (request : ExecutionRequest) (env : ExecEnv) : String :=
  ((request.agent.bind AgentCfg.provider).getD env.defaultProvider)

/-- `request.agent?.limits?.timeoutMs ?? config.timeout`. -/
def timeoutOf (request : ExecutionRequest) (env : ExecEnv) : Nat :=
  ((request.agent.bind AgentCfg.timeoutMs).getD env.timeoutDefault)

/-- `request.metadata?.expectBranchPush === true`. -/
def expectBranchPushTrue (request : ExecutionRequest) : Bool :=
  match request.metadata with
  | some m => m.expectBranchPush = some (.bool true)
  | none => false

/-- The branch for which push verification will run, when the guard
`gitWorkspace && gitWorkspace.branch && gitWorkspace.branch !== "main"
&& request.metadata?.expectBranchPush === true` holds (a branch of `""`
is falsy in JavaScript). -/
def verifyBranch (request : ExecutionRequest) : Option String :=
  match request.workspace with
  | some ws =>
    match ws.wsType, ws.branch with
    | some (.str "git"), some b =>
      if b ≠ "" ∧ b ≠ "main" ∧ expectBranchPushTrue request = true then some b else none
    | _, _ => none
  | none => none

/-- The push-verification diagnostic interpolated into the payload. -/
def pushFailMsg (branch : String) (unpushedCommits : List String) : String :=
  "Git push verification failed: branch \"" ++ branch ++
    "\" has unpushed changes: " ++ String.intercalate ", " unpushedCommits

/-- The success-path payload (src/bridge.ts lines 117–128): status is
decided solely by push verification; the provider's usage counters and
output pass through unchanged. -/
def resultPayload (request : ExecutionRequest) (r : ProviderResult)
    (pushErr : Option String) (durationMs : Nat) : CallbackPayload :=
  { id := request.id
    status := match pushErr with | some _ => .error | none => .success
    durationMs := durationMs
    totalCostUsd := r.usage.totalCostUsd
    inputTokens := r.usage.inputTokens
    outputTokens := r.usage.outputTokens
    numTurns := r.usage.numTurns
    result := r.output
    error := pushErr
    metadata := request.metadata }

/-- `if (request.callbackUrl) await sendCallback(...)`: the callbacks
delivered (`sendCallback` itself never throws). -/
def deliver (request : ExecutionRequest) (payload : CallbackPayload) :
    List CallbackPayload :=
  match request.callbackUrl with
  | some _ => [payload]
  | none => []

/-- `executeRequest(request)` (src/bridge.ts lines 12–153): the empty
prompt guard, then the `try { setup … race … verify … callback } catch
{ error callback } finally { cleanup?.() }` control flow. -/
def executeRequest (request : ExecutionRequest) (env : ExecEnv) : ExecTrace :=
  if request.prompt = "" ∨ jsTrim request.prompt.data = [] then
    { setupEntered := false, cleanupCalls := 0, verifyCalled := false
      callbacks :=
        deliver request (buildErrorPayload request
          ("Empty prompt received for request " ++ request.id) env.durationMs) }
  else
    match env.setup with
    | .error e =>
      -- setupWorkspace threw before `cleanup` was assigned: the catch
      -- block sends an error callback and `finally` finds no cleanup.
      { setupEntered := true, cleanupCalls := 0, verifyCalled := false
        callbacks := deliver request (buildErrorPayload request e env.durationMs) }
    | .ok _cwd =>
      match env.mcp with
      | .error e =>
        { setupEntered := true, cleanupCalls := 1, verifyCalled := false
          callbacks := deliver request (buildErrorPayload request e env.durationMs) }
      | .ok _ =>
        if providerNameOf request env ∈ env.providers then
          match env.race with
          | .timedOut =>
            { setupEntered := true, cleanupCalls := 1, verifyCalled := false
              callbacks := deliver request (buildErrorPayload request
                (timeoutMessage (timeoutOf request env) request.id) env.durationMs) }
          | .thrown msg =>
            { setupEntered := true, cleanupCalls := 1, verifyCalled := false
              callbacks := deliver request (buildErrorPayload request msg env.durationMs) }
          | .result r =>
            match verifyBranch request with
            | some b =>
              if env.verify.pushed then
                { setupEntered := true, cleanupCalls := 1, verifyCalled := true
                  callbacks := deliver request (resultPayload request r none env.durationMs) }
              else
                { setupEntered := true, cleanupCalls := 1, verifyCalled := true
                  callbacks := deliver request (resultPayload request r
                    (some (pushFailMsg b env.verify.unpushedCommits)) env.durationMs) }
            | none =>
              { setupEntered := true, cleanupCalls := 1, verifyCalled := false
                callbacks := deliver request (resultPayload request r none env.durationMs) }
        else
          { setupEntered := true, cleanupCalls := 1, verifyCalled := false
            callbacks := deliver request (buildErrorPayload request
              (unknownProviderMsg (providerNameOf request env) env.providers) env.durationMs) }

/-! ## setupWorkspace (src/workspace.ts lines 132–180)

The git-side effects (`ensureBareClone`, `mkdtemp`) are oracle fields of
`WsEnv`. Overlay injection and the committer-identity `git config` calls
have no bearing on the claims and are not traced. -/

/-- What the returned `cleanup` closure would do. -/
inductive CleanupKind where
  | noop
  | worktreeRemove
  | tempdirDelete
deriving DecidableEq, Repr

/-- A successful `WorkspaceResult`: the resolved cwd and its cleanup. -/
structure SetupOk where
  cwd : String
  cleanupKind : CleanupKind
deriving DecidableEq, Repr

/-- Oracle for one `setupWorkspace` call. -/
structure WsEnv where
  /-- `process.cwd()`. -/
  processCwd : String
  /-- Outcome of `ensureBareClone` (clone or fetch may throw). -/
  store : Except String BareStore
  /-- `config.worktreesDir`. -/
  worktreesDir : String
  /-- `Date.now()` at worktree creation. -/
  nowMs : Nat
  /-- The directory `mkdtempSync` would create. -/
  tempDir : String
deriving DecidableEq, Repr

/-- JavaScript template interpolation `${v}` of a possibly-missing
field, as in the `Unsupported workspace type` message. -/
def jsInterp (v : Option JVal) : String :=
  match v with
  | none => "undefined"
  | some (.str s) => s
  | some (.bool b) => if b then "true" else "false"
  | some (.num n) => toString n
  | some .null => "null"

/-- `setupWorkspace(workspace, config)`: no workspace → current
directory with a no-op cleanup; `type === "git"` → bare clone plus
worktree; `type === "tempdir"` → fresh temp dir (seed files elided);
anything else → throw `Unsupported workspace type`. -/
def setupWorkspace (env : WsEnv) (workspace : Option WsRaw) : Except String SetupOk :=
  match workspace with
  | none => .ok ⟨env.processCwd, .noop⟩
  | some ws =>
    if ws.wsType = some (.str "git") then
      match env.store with
      | .error e => .error e
      | .ok store =>
        let wt := createWorktree store env.worktreesDir env.nowMs (ws.branch.getD "main")
        match wt.checkedOut with
        | .error e => .error e
        | .ok _ => .ok ⟨wt.worktreePath, .worktreeRemove⟩
    else if ws.wsType = some (.str "tempdir") then
      .ok ⟨env.tempDir, .tempdirDelete⟩
    else
      .error ("Unsupported workspace type: " ++ jsInterp ws.wsType)

/-! ## HTTP admission (src/http.ts, POST /execute)

Auth, body reading and JSON parsing are upstream of the claims; the
model starts from the parsed body. A non-object `workspace` value skips
the type validation in the source exactly as an absent one does, so the
model keeps `workspace` as an optional object. -/

/-- The parsed JSON body fields the handler inspects. -/
structure BodyData where
  id : Option JVal := none
  prompt : Option JVal := none
  workspace : Option WsRaw := none
deriving DecidableEq, Repr

/-- Outcome of the `POST /execute` handler after parsing. -/
inductive AdmitOutcome where
  | reject (status : Nat) (error : String)
  | accept (id : String)
deriving DecidableEq, Repr

/-- `typeof data.id === "string" ? data.id : randomUUID()`. -/
def idOf (data : BodyData) (genId : String) : String :=
  match data.id with
  | some (.str s) => s
  | _ => genId

/-- The prompt guard `!data.prompt || typeof data.prompt !== "string" ||
data.prompt.trim() === ""`. -/
def promptInvalid (data : BodyData) : Bool :=
  match data.prompt with
  | some (.str p) => p = "" || jsTrim p.data = []
  | _ => true

/-- The `POST /execute` validation sequence: prompt check, then
workspace-type check (`ws.type !== undefined && !VALID.has(ws.type)`),
then 202 acceptance. -/
def httpAdmit (data : BodyData) (genId : String) : AdmitOutcome :=
  if promptInvalid data then
    .reject 400 "Field 'prompt' is required and must be a non-empty string"
  else
    match data.workspace with
    | some ws =>
      match ws.wsType with
      | some t =>
        if t = .str "git" ∨ t = .str "tempdir" then .accept (idOf data genId)
        else .reject 400 "Invalid workspace.type: must be one of git, tempdir"
      | none => .accept (idOf data genId)
    | none => .accept (idOf data genId)

/-! ## RequestQueue

Modelled from the spec: `src/queue.ts` is not among the provided
sources (only its call sites in the transports are), so the queue's
transition system is taken from spec §4.1: `submit` starts a request
immediately when `active < max` and otherwise appends it to a FIFO
backlog; a completion decrements the active count and, if the backlog
is non-empty, dequeues the head and starts it.  A `complete` event is
only meaningful while something is active (completions are emitted by
running executions); with `active = 0` it is a no-op. -/

/-- Modelled from the spec: queue state `{active, queued, max}` plus the
start order actually observed. -/
structure QueueState where
  active : Nat
  backlog : List String
  maxConcurrent : Nat
  started : List String
deriving DecidableEq, Repr

/-- Modelled from the spec: the two events the queue reacts to. -/
inductive QEvent where
  | submit (id : String)
  | complete
deriving DecidableEq, Repr

/-- Modelled from the spec: one queue transition. -/
def qStep (s : QueueState) (e : QEvent) : QueueState :=
  match e with
  | .submit id =>
    if s.active < s.maxConcurrent then
      { s with active := s.active + 1, started := s.started ++ [id] }
    else
      { s with backlog := s.backlog ++ [id] }
  | .complete =>
    if s.active = 0 then s
    else
      match s.backlog with
      | h :: t =>
        { s with active := s.active - 1 + 1, backlog := t, started := s.started ++ [h] }
      | [] => { s with active := s.active - 1 }

/-- Modelled from the spec: initial queue state for `createQueue(max)`. -/
def qInit (maxConcurrent : Nat) : QueueState := ⟨0, [], maxConcurrent, []⟩

/-- Modelled from the spec: run a whole submission/completion history. -/
def qRun (maxConcurrent : Nat) (events : List QEvent) : QueueState :=
  events.foldl qStep (qInit maxConcurrent)

/-! ## Concrete fixtures used to instantiate the theorems -/

/-- A plain request: valid prompt, callback endpoint, no workspace. -/
def cbReq : ExecutionRequest :=
  { id := "req-1", prompt := "do the task", callbackUrl := some "https://cb.example/hook" }

/-- An environment whose provider run settles normally but reports
`status: "error"` in its `ProviderResult`. -/
def errResultEnv : ExecEnv :=
  { setup := .ok "/tmp/agent-bridge/worktrees/wt-1"
    mcp := .ok ()
    providers := ["claude-code"]
    defaultProvider := "claude-code"
    timeoutDefault := 1800000
    race := .result ⟨.error, none, some "provider failed", ⟨0, 0, 0, 0⟩⟩
    verify := ⟨true, []⟩
    durationMs := 1234 }

/-- A git-workspace request on a feature branch opting in to push
verification. -/
def pushReq : ExecutionRequest :=
  { id := "req-2", prompt := "implement the feature"
    callbackUrl := some "https://cb.example/hook"
    workspace := some { wsType := some (.str "git"), repo := "owner/repo"
                        branch := some "feature-x" }
    metadata := some { expectBranchPush := some (.bool true) } }

/-- An environment where the provider succeeds with non-zero usage but
push verification reports an unpushed commit. -/
def pushEnv : ExecEnv :=
  { setup := .ok "/tmp/agent-bridge/worktrees/wt-2"
    mcp := .ok ()
    providers := ["claude-code"]
    defaultProvider := "claude-code"
    timeoutDefault := 1800000
    race := .result ⟨.success, some "done", none, ⟨7, 100, 200, 5⟩⟩
    verify := ⟨false, ["abc1234 fix typo"]⟩
    durationMs := 987 }

/-- A request whose prompt is whitespace only. -/
def blankReq : ExecutionRequest :=
  { id := "req-0", prompt := "  ", callbackUrl := some "https://cb.example/hook" }

/-- A bare store for a repository whose default branch is `master`;
`main` exists but is not the default. -/
def masterDefaultStore : BareStore := ⟨["master", "main"], "master"⟩

/-- A git-workspace request for branch `main` — a non-default branch of
the repository behind `masterDefaultStore` — opting in to push
verification. -/
def nonDefaultMainReq : ExecutionRequest :=
  { id := "req-3", prompt := "implement the feature"
    callbackUrl := some "https://cb.example/hook"
    workspace := some { wsType := some (.str "git"), repo := "owner/repo"
                        branch := some "main" }
    metadata := some { expectBranchPush := some (.bool true) } }

/-- An environment where the timeout timer wins the race. -/
def timeoutEnv : ExecEnv :=
  { setup := .ok "/tmp/agent-bridge/worktrees/wt-3"
    mcp := .ok ()
    providers := ["claude-code"]
    defaultProvider := "claude-code"
    timeoutDefault := 60000
    race := .timedOut
    verify := ⟨true, []⟩
    durationMs := 60001 }

/-! ## Helper lemmas: injectivity of the base-36 worktree id -/

lemma base36Char_inj_lt {a b : Nat} (ha : a < 36) (hb : b < 36)
    (h : base36Char a = base36Char b) : a = b := by
  have key : ∀ a : Nat, a < 36 → ∀ b : Nat, b < 36 →
      base36Char a = base36Char b → a = b := by decide
  exact key a ha b hb h

lemma map_base36Char_inj : ∀ l₁ l₂ : List Nat, (∀ x ∈ l₁, x < 36) →
    (∀ x ∈ l₂, x < 36) → l₁.map base36Char = l₂.map base36Char → l₁ = l₂ := by
  intro l₁
  induction l₁ with
  | nil => intro l₂ _ _ h; cases l₂ <;> simp_all
  | cons a t ih =>
    intro l₂ h₁ h₂ h
    cases l₂ with
    | nil => simp_all
    | cons b t₂ =>
      simp only [List.map_cons, List.cons.injEq] at h
      have ha : a < 36 := h₁ a (by simp)
      have hb : b < 36 := h₂ b (by simp)
      have hab := base36Char_inj_lt ha hb h.1
      have ht := ih t₂ (fun x hx => h₁ x (by simp [hx])) (fun x hx => h₂ x (by simp [hx])) h.2
      rw [hab, ht]

lemma toBase36_inj : Function.Injective toBase36 := by
  intro m n h
  unfold toBase36 at h
  by_cases hm : m = 0 <;> by_cases hn : n = 0 <;> simp [hm, hn] at h ⊢
  · -- m = 0, n ≠ 0 : "0" = mk (reverse (map …)) forces digits 36 n = [0]
    exfalso
    have hdata := congrArg String.data h
    simp only [String.data] at hdata
    have : (Nat.digits 36 n).map base36Char = ['0'] := by
      have := congrArg List.reverse hdata
      simpa using this.symm
    have hd : Nat.digits 36 n = [0] := by
      apply map_base36Char_inj _ [0]
      · intro x hx; exact Nat.digits_lt_base (by norm_num) hx
      · intro x hx; simp at hx; omega
      · simpa [base36Char] using this
    have := Nat.ofDigits_digits 36 n
    rw [hd] at this
    simp [Nat.ofDigits] at this
    exact hn this.symm
  · -- m ≠ 0, n = 0 : symmetric
    exfalso
    have hdata := congrArg String.data h
    simp only [String.data] at hdata
    have : (Nat.digits 36 m).map base36Char = ['0'] := by
      have := congrArg List.reverse hdata
      simpa using this
    have hd : Nat.digits 36 m = [0] := by
      apply map_base36Char_inj _ [0]
      · intro x hx; exact Nat.digits_lt_base (by norm_num) hx
      · intro x hx; simp at hx; omega
      · simpa [base36Char] using this
    have := Nat.ofDigits_digits 36 m
    rw [hd] at this
    simp [Nat.ofDigits] at this
    exact hm this.symm
  · -- both nonzero
    have hdata := congrArg String.data h
    simp only [String.data] at hdata
    have hmap : (Nat.digits 36 m).map base36Char = (Nat.digits 36 n).map base36Char := by
      have := congrArg List.reverse hdata
      simpa using this
    have hd : Nat.digits 36 m = Nat.digits 36 n :=
      map_base36Char_inj _ _ (fun x hx => Nat.digits_lt_base (by norm_num) hx)
        (fun x hx => Nat.digits_lt_base (by norm_num) hx) hmap
    have hm' := Nat.ofDigits_digits 36 m
    have hn' := Nat.ofDigits_digits 36 n
    rw [hd] at hm'
    rw [hn'] at hm'
    exact hm'.symm

lemma worktreePathOf_inj (dir : String) {t₁ t₂ : Nat} (h : t₁ ≠ t₂) :
    worktreePathOf dir t₁ ≠ worktreePathOf dir t₂ := by
  intro he
  apply h
  apply toBase36_inj
  have hdata := congrArg String.data he
  simp only [worktreePathOf, String.data_append] at hdata
  have := List.append_cancel_left hdata
  exact String.ext this

/-! ## Helper lemmas: orchestrator reductions -/

/-- Characterisation of the push-verification guard in terms of the
request's fields. -/
lemma verifyBranch_eq_some_iff (request : ExecutionRequest) (b : String) :
    verifyBranch request = some b ↔
      ∃ ws, request.workspace = some ws ∧ ws.wsType = some (.str "git") ∧
        ws.branch = some b ∧ b ≠ "" ∧ b ≠ "main" ∧
        ∃ m, request.metadata = some m ∧ m.expectBranchPush = some (.bool true) := by
  constructor
  · intro hb
    unfold verifyBranch at hb
    split at hb
    next ws hw =>
      split at hb
      next b' hty hbr =>
        split at hb
        next hcond =>
          obtain ⟨hne, hnm, hflag⟩ := hcond
          obtain rfl : b' = b := by simpa using hb
          refine ⟨ws, hw, hty, hbr, hne, hnm, ?_⟩
          rcases hm : request.metadata with _ | m
          · simp [expectBranchPushTrue, hm] at hflag
          · simp [expectBranchPushTrue, hm] at hflag
            exact ⟨m, rfl, hflag⟩
        next => simp at hb
      next => simp at hb
    next => simp at hb
  · rintro ⟨ws, hws, hty, hbr, hne, hnm, m, hm, hflag⟩
    simp only [verifyBranch, hws, hty, hbr]
    rw [if_pos ⟨hne, hnm, by simp [expectBranchPushTrue, hm, hflag]⟩]

/-- Reduction of `executeRequest` on the path where setup, MCP loading
and provider resolution succeed and the provider wins the race with a
settled result. -/
lemma executeRequest_result_eq (request : ExecutionRequest) (env : ExecEnv)
    (hprompt : ¬(request.prompt = "" ∨ jsTrim request.prompt.data = []))
    (cwd : String) (hsetup : env.setup = .ok cwd) (hmcp : env.mcp = .ok ())
    (hprov : providerNameOf request env ∈ env.providers)
    (r : ProviderResult) (hrace : env.race = .result r) :
    executeRequest request env =
      match verifyBranch request with
      | some b =>
        if env.verify.pushed then
          ⟨true, 1, true, deliver request (resultPayload request r none env.durationMs)⟩
        else
          ⟨true, 1, true, deliver request (resultPayload request r
            (some (pushFailMsg b env.verify.unpushedCommits)) env.durationMs)⟩
      | none => ⟨true, 1, false, deliver request (resultPayload request r none env.durationMs)⟩ := by
  unfold executeRequest
  simp only [hsetup, hmcp, hrace, if_neg hprompt, if_pos hprov]

/-- `qStep` never changes the configured maximum. -/
lemma qStep_max (s : QueueState) (e : QEvent) :
    (qStep s e).maxConcurrent = s.maxConcurrent := by
  cases e with
  | submit id => by_cases h : s.active < s.maxConcurrent <;> simp [qStep, h]
  | complete =>
    by_cases h : s.active = 0
    · simp [qStep, h]
    · cases hb : s.backlog <;> simp [qStep, h, hb]

/-- One step preserves the concurrency bound. -/
lemma qStep_bound (s : QueueState) (e : QEvent) (h : s.active ≤ s.maxConcurrent) :
    (qStep s e).active ≤ s.maxConcurrent := by
  cases e with
  | submit id =>
    by_cases hlt : s.active < s.maxConcurrent <;> simp [qStep, hlt] <;> omega
  | complete =>
    by_cases h0 : s.active = 0
    · simp only [qStep, h0, if_true]; omega
    · cases hb : s.backlog <;> simp [qStep, h0, hb] <;> omega

/-- The bound is inductive over whole event histories. -/
lemma foldl_qStep_inv : ∀ (events : List QEvent) (s : QueueState),
    s.active ≤ s.maxConcurrent →
    (events.foldl qStep s).active ≤ (events.foldl qStep s).maxConcurrent ∧
    (events.foldl qStep s).maxConcurrent = s.maxConcurrent := by
  intro events
  induction events with
  | nil => intro s h; exact ⟨h, rfl⟩
  | cons e t ih =>
    intro s h
    have h1 := qStep_bound s e h
    have h2 := qStep_max s e
    have h3 := ih (qStep s e) (by rw [h2]; exact h1)
    simp only [List.foldl_cons]
    exact ⟨h3.1, h3.2.trans h2⟩

/-- Anything in the delivered-callback list is the payload itself. -/
lemma mem_deliver {request : ExecutionRequest} {payload p : CallbackPayload}
    (hp : p ∈ deliver request payload) : p = payload := by
  unfold deliver at hp
  split at hp <;> simp_all

/-! # Theorems for the claims -/

/-- C1: whenever an execution gets past the empty-prompt guard it enters
workspace setup, and the cleanup action runs exactly once on every exit
path when setup produced a handle — and zero times when setup itself
threw. -/
theorem workspace_cleanup_exactly_once (request : ExecutionRequest) (env : ExecEnv)
    (hprompt : ¬(request.prompt = "" ∨ jsTrim request.prompt.data = [])) :
    (executeRequest request env).setupEntered = true ∧
    (executeRequest request env).cleanupCalls =
      (match env.setup with | .ok _ => 1 | .error _ => 0) := by
  unfold executeRequest
  rw [if_neg hprompt]
  cases hs : env.setup with
  | error e => simp
  | ok cwd =>
    cases hm : env.mcp with
    | error e => simp
    | ok u =>
      by_cases hp : providerNameOf request env ∈ env.providers
      · rw [if_pos hp]
        cases hr : env.race with
        | timedOut => simp
        | thrown m => simp
        | result r =>
          cases hv : verifyBranch request with
          | none => simp
          | some b => by_cases hpd : env.verify.pushed <;> simp [hpd]
      · rw [if_neg hp]; simp

/-- C1 witness: a concrete run whose setup succeeded cleans up once. -/
theorem workspace_cleanup_exactly_once_witness :
    ¬(cbReq.prompt = "" ∨ jsTrim cbReq.prompt.data = []) ∧
    ((executeRequest cbReq errResultEnv).setupEntered = true ∧
      (executeRequest cbReq errResultEnv).cleanupCalls =
        (match errResultEnv.setup with | .ok _ => 1 | .error _ => 0)) :=
  ⟨by decide, workspace_cleanup_exactly_once cbReq errResultEnv (by decide)⟩

/-- C7: a prompt that is empty after trimming short-circuits: no
workspace interaction at all, and — when a callback URL is supplied — a
single error callback whose payload has status error and all usage
counters zero. -/
theorem empty_prompt_short_circuit (request : ExecutionRequest) (env : ExecEnv)
    (h : jsTrim request.prompt.data = []) :
    (executeRequest request env).setupEntered = false ∧
    (executeRequest request env).cleanupCalls = 0 ∧
    (∀ u, request.callbackUrl = some u →
      (executeRequest request env).callbacks =
        [{ id := request.id, status := .error, durationMs := env.durationMs
           totalCostUsd := 0, inputTokens := 0, outputTokens := 0, numTurns := 0
           result := none
           error := some ("Empty prompt received for request " ++ request.id)
           metadata := request.metadata }]) ∧
    (request.callbackUrl = none → (executeRequest request env).callbacks = []) := by
  unfold executeRequest
  rw [if_pos (Or.inr h)]
  refine ⟨rfl, rfl, ?_, ?_⟩
  · intro u hu; simp [deliver, hu, buildErrorPayload]
  · intro hu; simp [deliver, hu]

/-- C7 witness: a whitespace-only prompt with a callback URL. -/
theorem empty_prompt_short_circuit_witness :
    jsTrim blankReq.prompt.data = [] ∧
    (executeRequest blankReq errResultEnv).setupEntered = false ∧
    (executeRequest blankReq errResultEnv).callbacks =
      [{ id := "req-0", status := .error, durationMs := 1234,
         totalCostUsd := 0, inputTokens := 0, outputTokens := 0, numTurns := 0,
         result := none, error := some "Empty prompt received for request req-0",
         metadata := none }] :=
  ⟨by decide,
   (empty_prompt_short_circuit blankReq errResultEnv (by decide)).1,
   by
    have := (empty_prompt_short_circuit blankReq errResultEnv
      (by decide)).2.2.1 "https://cb.example/hook" rfl
    simpa using this⟩

/-- C3 counterexample: a provider that settles normally with a
`ProviderResult` of `status: "error"` still produces a callback with
status `"success"` — the orchestrator never inspects
`providerResult.status` when building the payload. -/
theorem provider_error_status_counterexample :
    errResultEnv.race = .result ⟨.error, none, some "provider failed", ⟨0, 0, 0, 0⟩⟩ ∧
    (executeRequest cbReq errResultEnv).callbacks.map CallbackPayload.status =
      [RStatus.success] := by
  refine ⟨rfl, by decide⟩

/-- C3 (amended): when the provider invocation rejects or the timeout
elapses first, the callback has status error; a `ProviderResult`
returned normally — whatever its own `status` — yields a callback with
status success unless push verification downgrades it. -/
theorem provider_reject_or_timeout_errors (request : ExecutionRequest) (env : ExecEnv)
    (hprompt : ¬(request.prompt = "" ∨ jsTrim request.prompt.data = []))
    (cwd : String) (hsetup : env.setup = .ok cwd) (hmcp : env.mcp = .ok ())
    (hprov : providerNameOf request env ∈ env.providers) :
    ((env.race = .timedOut ∨ ∃ m, env.race = .thrown m) →
      ∀ p ∈ (executeRequest request env).callbacks, p.status = .error) ∧
    (∀ r, env.race = .result r →
      (verifyBranch request = none ∨ env.verify.pushed = true) →
      ∀ p ∈ (executeRequest request env).callbacks, p.status = .success) := by
  constructor
  · intro hrace p hp
    rcases hrace with hr | ⟨m, hr⟩ <;>
    · unfold executeRequest at hp
      simp only [hsetup, hmcp, hr, if_neg hprompt, if_pos hprov] at hp
      rw [mem_deliver hp]; rfl
  · intro r hr hnv p hp
    rw [executeRequest_result_eq request env hprompt cwd hsetup hmcp hprov r hr] at hp
    cases hv2 : verifyBranch request with
    | none =>
      rw [hv2] at hp
      rw [mem_deliver hp]; rfl
    | some b =>
      rw [hv2] at hp
      have hpd : env.verify.pushed = true := by
        rcases hnv with hv | hpd
        · rw [hv2] at hv; cases hv
        · exact hpd
      simp only [hpd, if_true] at hp
      rw [mem_deliver hp]; rfl

/-- C3 witness: the timeout path of the amended statement on a concrete
run. -/
theorem provider_reject_or_timeout_errors_witness :
    ¬(cbReq.prompt = "" ∨ jsTrim cbReq.prompt.data = []) ∧
    ∀ p ∈ (executeRequest cbReq timeoutEnv).callbacks, p.status = .error :=
  ⟨by decide,
   (provider_reject_or_timeout_errors cbReq timeoutEnv (by decide) _ rfl rfl
      (by decide)).1 (Or.inl rfl)⟩

/-- C4 counterexample: on a repository whose default branch is
`master`, requesting branch `main` — a non-default branch there — with
`metadata.expectBranchPush` exactly `true` on a git workspace does not
trigger push verification, even though the provider settled normally:
the guard compares the requested branch against the literal `"main"`
and never consults the repository's default branch, so the claim's
"non-default branch requested" iff fails. -/
theorem push_verification_nondefault_counterexample :
    masterDefaultStore.defaultBranch = "master" ∧
    nonDefaultMainReq.workspace =
      some { wsType := some (.str "git"), repo := "owner/repo", branch := some "main" } ∧
    "main" ≠ masterDefaultStore.defaultBranch ∧
    expectBranchPushTrue nonDefaultMainReq = true ∧
    pushEnv.race = .result ⟨.success, some "done", none, ⟨7, 100, 200, 5⟩⟩ ∧
    (executeRequest nonDefaultMainReq pushEnv).verifyCalled = false := by
  refine ⟨rfl, rfl, by decide, by decide, rfl, by decide⟩

/-- C4 (amended): on a run where the provider settled normally, push
verification runs iff the workspace is git-backed with a non-empty
branch other than the literal `main` (the repository's actual default
branch is never consulted) and `metadata.expectBranchPush` is exactly
the boolean `true`;
and a not-pushed verdict downgrades the callback to status error with
the verification diagnostic as the error text while the provider's
usage counters pass through unchanged. -/
theorem push_verification_iff (request : ExecutionRequest) (env : ExecEnv)
    (hprompt : ¬(request.prompt = "" ∨ jsTrim request.prompt.data = []))
    (cwd : String) (hsetup : env.setup = .ok cwd) (hmcp : env.mcp = .ok ())
    (hprov : providerNameOf request env ∈ env.providers)
    (r : ProviderResult) (hrace : env.race = .result r) :
    ((executeRequest request env).verifyCalled = true ↔
      ∃ ws, request.workspace = some ws ∧ ws.wsType = some (.str "git") ∧
        ∃ b, ws.branch = some b ∧ b ≠ "" ∧ b ≠ "main" ∧
          ∃ m, request.metadata = some m ∧ m.expectBranchPush = some (.bool true)) ∧
    (∀ b, verifyBranch request = some b → env.verify.pushed = false →
      ∀ p ∈ (executeRequest request env).callbacks,
        p.status = .error ∧
        p.error = some (pushFailMsg b env.verify.unpushedCommits) ∧
        p.totalCostUsd = r.usage.totalCostUsd ∧ p.inputTokens = r.usage.inputTokens ∧
        p.outputTokens = r.usage.outputTokens ∧ p.numTurns = r.usage.numTurns) := by
  constructor
  · rw [executeRequest_result_eq request env hprompt cwd hsetup hmcp hprov r hrace]
    constructor
    · intro hcalled
      cases hv : verifyBranch request with
      | none => rw [hv] at hcalled; simp at hcalled
      | some b =>
        obtain ⟨ws, hws, hty, hbr, hne, hnm, m, hm, hflag⟩ :=
          (verifyBranch_eq_some_iff request b).mp hv
        exact ⟨ws, hws, hty, b, hbr, hne, hnm, m, hm, hflag⟩
    · rintro ⟨ws, hws, hty, b, hbr, hne, hnm, m, hm, hflag⟩
      have hv : verifyBranch request = some b :=
        (verifyBranch_eq_some_iff request b).mpr ⟨ws, hws, hty, hbr, hne, hnm, m, hm, hflag⟩
      rw [hv]
      by_cases hpd : env.verify.pushed <;> simp [hpd]
  · intro b hv hpd p hp
    rw [executeRequest_result_eq request env hprompt cwd hsetup hmcp hprov r hrace] at hp
    rw [hv] at hp
    simp only [hpd, if_false, Bool.false_eq_true] at hp
    rw [mem_deliver hp]
    exact ⟨rfl, rfl, rfl, rfl, rfl, rfl⟩

/-- C4 witness: a feature-branch git request opting in, with a failing
verification and non-zero provider usage. -/
theorem push_verification_iff_witness :
    (executeRequest pushReq pushEnv).verifyCalled = true ∧
    ∀ p ∈ (executeRequest pushReq pushEnv).callbacks,
      p.status = .error ∧
      p.error = some (pushFailMsg "feature-x" ["abc1234 fix typo"]) ∧
      p.totalCostUsd = 7 ∧ p.inputTokens = 100 ∧ p.outputTokens = 200 ∧ p.numTurns = 5 := by
  have h := push_verification_iff pushReq pushEnv (by decide) _ rfl rfl (by decide) _ rfl
  refine ⟨?_, ?_⟩
  · exact h.1.mpr ⟨_, rfl, rfl, "feature-x", rfl, by decide, by decide, _, rfl, rfl⟩
  · intro p hp
    exact h.2 "feature-x" (by decide) rfl p hp

/-- C9: `repoSlug("owner/repo")` equals `"owner--repo"`, and
`repoSlug("https://github.com/owner/repo.git")` equals `"owner--repo"`. -/
theorem repoSlug_examples :
    repoSlug "owner/repo" = .ok "owner--repo" ∧
    repoSlug "https://github.com/owner/repo.git" = .ok "owner--repo" := by
  constructor <;> rfl

/-- C5 counterexample: on a bare store whose only branch (and default
branch) is `master`, requesting the missing branch `feature` does not
fall back to the default branch and does not succeed — the fallback
targets the literal branch `main`, which is absent, so the second
`git worktree add` error escapes. -/
theorem createWorktree_default_fallback_counterexample :
    "feature" ∉ (BareStore.mk ["master"] "master").branches ∧
    (createWorktree ⟨["master"], "master"⟩ "/w" 0 "feature").checkedOut ≠
      Except.ok (BareStore.mk ["master"] "master").defaultBranch ∧
    (createWorktree ⟨["master"], "master"⟩ "/w" 0 "feature").checkedOut =
      .error "fatal: invalid reference: main" := by
  refine ⟨by decide, by decide, by decide⟩

/-- C5 (amended): when the requested branch does not exist in the bare
store, `createWorktree` falls back to the literal branch `"main"`,
detached; the fallback succeeds precisely when `main` exists in the
store, and every checkout it attempts is detached. -/
theorem createWorktree_main_fallback (store : BareStore) (dir : String) (now : Nat)
    (branch : String) (hb : branch ∉ store.branches) :
    (createWorktree store dir now branch).checkedOut =
      (if "main" ∈ store.branches then Except.ok "main"
       else Except.error "fatal: invalid reference: main") ∧
    ∀ c ∈ (createWorktree store dir now branch).addCmds, c.detach = true := by
  by_cases hm : "main" ∈ store.branches <;> refine ⟨by simp [createWorktree, hb, hm], ?_⟩ <;>
    intro c hc <;> simp [createWorktree, hb, hm] at hc <;>
    rcases hc with h | h <;> simp [h]

/-- C5 witness: concrete fallback run on a store that has `main`. -/
theorem createWorktree_main_fallback_witness :
    "feature" ∉ (BareStore.mk ["main"] "main").branches ∧
    ((createWorktree ⟨["main"], "main"⟩ "/w" 0 "feature").checkedOut =
      (if "main" ∈ (BareStore.mk ["main"] "main").branches then Except.ok "main"
       else Except.error "fatal: invalid reference: main") ∧
    ∀ c ∈ (createWorktree ⟨["main"], "main"⟩ "/w" 0 "feature").addCmds, c.detach = true) :=
  ⟨by decide, createWorktree_main_fallback ⟨["main"], "main"⟩ "/w" 0 "feature" (by decide)⟩

/-- C8 counterexample: two distinct worktree creations in the same
millisecond (ids come from `Date.now().toString(36)`) generate the same
path. -/
theorem createWorktree_same_ms_collision :
    createWorktree ⟨["main"], "main"⟩ "/w" 777 "alpha" ≠
      createWorktree ⟨["main"], "main"⟩ "/w" 777 "beta" ∧
    (createWorktree ⟨["main"], "main"⟩ "/w" 777 "alpha").worktreePath =
      (createWorktree ⟨["main"], "main"⟩ "/w" 777 "beta").worktreePath := by
  constructor
  · intro h
    have h2 := congrArg WorktreeOutcome.addCmds h
    simp [createWorktree] at h2
  · simp [createWorktree]

/-- C8 (amended): worktree paths are distinct whenever the creation
millisecond timestamps differ (the id map is injective), and every
`git worktree add` issued by `createWorktree` is detached. -/
theorem worktree_paths_distinct_and_detached (dir : String) (t₁ t₂ : Nat) (h : t₁ ≠ t₂) :
    worktreePathOf dir t₁ ≠ worktreePathOf dir t₂ ∧
    ∀ (store : BareStore) (branch : String) (c : GitWtAdd),
      c ∈ (createWorktree store dir t₁ branch).addCmds → c.detach = true := by
  refine ⟨worktreePathOf_inj dir h, ?_⟩
  intro store branch c hc
  unfold createWorktree at hc
  split_ifs at hc <;> simp_all <;> rcases hc with h' | h' <;> simp [h']

/-- C8 witness: the amended statement at two concrete timestamps. -/
theorem worktree_paths_distinct_and_detached_witness :
    (1 : Nat) ≠ 2 ∧
    (worktreePathOf "/w" 1 ≠ worktreePathOf "/w" 2 ∧
    ∀ (store : BareStore) (branch : String) (c : GitWtAdd),
      c ∈ (createWorktree store "/w" 1 branch).addCmds → c.detach = true) :=
  ⟨by decide, worktree_paths_distinct_and_detached "/w" 1 2 (by decide)⟩

/-- C6: `verifyGitPush` never raises (it is a total function of the two
git-command outcomes), and: unpushed commits are reported as
`{pushed: false}` with their summaries; no unpushed commits but a branch
absent from the remote gives the `(branch not on remote)` sentinel; any
git-tooling error gives exactly
`{pushed: false, unpushedCommits: ["(verification error)"]}`. -/
theorem verifyGitPush_spec (gitLog lsRemote : Except Unit String) :
    (∀ out, gitLog = .ok out → parseCommits out ≠ [] →
      verifyGitPush gitLog lsRemote = ⟨false, parseCommits out⟩) ∧
    (∀ out ref, gitLog = .ok out → parseCommits out = [] → lsRemote = .ok ref →
      jsTrim ref.data = [] →
      verifyGitPush gitLog lsRemote = ⟨false, ["(branch not on remote)"]⟩) ∧
    ((gitLog = .error () ∨
        ∃ out, gitLog = .ok out ∧ parseCommits out = [] ∧ lsRemote = .error ()) →
      verifyGitPush gitLog lsRemote = ⟨false, ["(verification error)"]⟩) := by
  refine ⟨?_, ?_, ?_⟩
  · intro out hlog hne
    subst hlog
    have hpos : 0 < (parseCommits out).length := List.length_pos.mpr hne
    simp [verifyGitPush, hpos]
  · intro out ref hlog hemp hls htrim
    subst hlog; subst hls
    simp [verifyGitPush, hemp, htrim]
  · intro h
    rcases h with h | ⟨out, hlog, hemp, hls⟩
    · subst h; simp [verifyGitPush]
    · subst hlog; subst hls; simp [verifyGitPush, hemp]

/-- C6 witness: the three behaviours at concrete git outcomes. -/
theorem verifyGitPush_spec_witness :
    (parseCommits "ab12 fix\ncd34 feat" ≠ [] ∧
      verifyGitPush (.ok "ab12 fix\ncd34 feat") (.ok "ref") =
        ⟨false, parseCommits "ab12 fix\ncd34 feat"⟩) ∧
    (parseCommits " " = [] ∧ jsTrim ("" : String).data = [] ∧
      verifyGitPush (.ok " ") (.ok "") = ⟨false, ["(branch not on remote)"]⟩) ∧
    verifyGitPush (.error ()) (.ok "x") = ⟨false, ["(verification error)"]⟩ :=
  ⟨⟨by decide, (verifyGitPush_spec _ _).1 _ rfl (by decide)⟩,
   ⟨by decide, by decide, (verifyGitPush_spec _ _).2.1 _ _ rfl (by decide) rfl (by decide)⟩,
   (verifyGitPush_spec _ _).2.2 (Or.inl rfl)⟩

/-- C2: over every submission/completion history the active count never
exceeds the configured maximum, and each completion on a state with
work in flight decrements the active count and — when the FIFO backlog
is non-empty — dequeues its head and starts it. -/
theorem queue_bound_and_completion (m : Nat) (events : List QEvent) :
    (qRun m events).active ≤ m ∧
    (∀ s : QueueState, 0 < s.active →
      (s.backlog = [] → qStep s .complete =
        { active := s.active - 1, backlog := [], maxConcurrent := s.maxConcurrent,
          started := s.started }) ∧
      ∀ h t, s.backlog = h :: t → qStep s .complete =
        { active := s.active, backlog := t, maxConcurrent := s.maxConcurrent,
          started := s.started ++ [h] }) := by
  constructor
  · have h3 := foldl_qStep_inv events (qInit m) (by simp [qInit])
    have h2 : (List.foldl qStep (qInit m) events).maxConcurrent = m := h3.2
    have h1 := h3.1
    show (List.foldl qStep (qInit m) events).active ≤ m
    omega
  · intro s hs
    have hne : ¬(s.active = 0) := by omega
    constructor
    · intro hb
      simp [qStep, hne, hb]
    · intro h t hb
      have hact : s.active - 1 + 1 = s.active := by omega
      simp [qStep, hne, hb, hact]

/-- C2 witness: a history of four submissions and one completion under
`max = 2`, and a concrete completion that promotes the backlog head. -/
theorem queue_bound_and_completion_witness :
    (qRun 2 [.submit "a", .submit "b", .submit "c", .submit "d", .complete]).active ≤ 2 ∧
    0 < (3 : Nat) ∧
    qStep ⟨3, ["x"], 2, ["a", "b", "c"]⟩ .complete = ⟨3, [], 2, ["a", "b", "c", "x"]⟩ := by
  refine ⟨(queue_bound_and_completion 2 _).1, by decide, ?_⟩
  have := ((queue_bound_and_completion 2 []).2 ⟨3, ["x"], 2, ["a", "b", "c"]⟩
    (by decide)).2 "x" [] rfl
  simpa using this

/-- C10: with a valid prompt, the handler rejects over the workspace iff
a `type` field is present and names neither `git` nor `tempdir`; a
workspace object with no `type` field is accepted with a 202
acknowledgment, and `setupWorkspace` later throws
`Unsupported workspace type: undefined` for it. -/
theorem http_workspace_type_gate (data : BodyData) (genId : String)
    (hp : promptInvalid data = false) :
    ((httpAdmit data genId =
        .reject 400 "Invalid workspace.type: must be one of git, tempdir") ↔
      ∃ ws, data.workspace = some ws ∧ ∃ t, ws.wsType = some t ∧
        t ≠ .str "git" ∧ t ≠ .str "tempdir") ∧
    (∀ ws, data.workspace = some ws → ws.wsType = none →
      httpAdmit data genId = .accept (idOf data genId) ∧
      ∀ env : WsEnv, setupWorkspace env (some ws) =
        .error "Unsupported workspace type: undefined") := by
  constructor
  · constructor
    · intro hr
      unfold httpAdmit at hr
      rw [hp] at hr
      simp only [Bool.false_eq_true, if_false] at hr
      split at hr
      next ws hw =>
        split at hr
        next t ht =>
          split at hr
          next hv => exact absurd hr (by simp)
          next hv =>
            push_neg at hv
            exact ⟨ws, hw, t, ht, hv.1, hv.2⟩
        next ht => exact absurd hr (by simp)
      next hw => exact absurd hr (by simp)
    · rintro ⟨ws, hws, t, ht, hg, htd⟩
      simp only [httpAdmit, hp, Bool.false_eq_true, if_false, hws, ht]
      rw [if_neg (not_or.mpr ⟨hg, htd⟩)]
  · intro ws hws ht
    refine ⟨?_, ?_⟩
    · simp only [httpAdmit, hp, Bool.false_eq_true, if_false, hws, ht]
    · intro env
      simp [setupWorkspace, ht, jsInterp]

/-- C10 witness: a body whose workspace object has no `type` field. -/
theorem http_workspace_type_gate_witness :
    promptInvalid ⟨none, some (.str "hello"), some {}⟩ = false ∧
    httpAdmit ⟨none, some (.str "hello"), some {}⟩ "gen-id" = .accept "gen-id" ∧
    setupWorkspace ⟨"/cwd", .ok ⟨["main"], "main"⟩, "/w", 0, "/tmp/x"⟩ (some {}) =
      .error "Unsupported workspace type: undefined" := by
  refine ⟨by decide, ?_, ?_⟩
  · exact ((http_workspace_type_gate ⟨none, some (.str "hello"), some {}⟩ "gen-id"
      (by decide)).2 {} rfl rfl).1
  · exact ((http_workspace_type_gate ⟨none, some (.str "hello"), some {}⟩ "gen-id"
      (by decide)).2 {} rfl rfl).2 ⟨"/cwd", .ok ⟨["main"], "main"⟩, "/w", 0, "/tmp/x"⟩

end AgentBridge
